import Mathlib

/-!
Shallow embedding of the fetch-and-extract pipeline of
`src/attached_assets/YouTubeapi_1758005096153.py`.

Strings are modelled as Lean `String` / `List Char`; the Python regular
expressions `[-|]`, `\b[A-Z][a-z]+(?:\s[A-Z][a-z]+)*` and the methods
`str.strip`, `str.split`, `" ".join`, `dict.fromkeys` are embedded as
executable functions over `List Char`.  Character classes are the ASCII
classes of the patterns (`[A-Z]`, `[a-z]`, `\s` = space/tab/newline/CR/VT/FF,
`\w` = ASCII letters, digits, underscore); all data handled by the script is
ASCII.  Durations (`isodate` total seconds) are integral for the API's
`PT#H#M#S` strings and are modelled as `Nat`.
-/

set_option maxRecDepth 10000

/-- ASCII class `[A-Z]` of the star-extraction pattern. -/
def isUpperAZ (c : Char) : Bool := 'A' ≤ c && c ≤ 'Z'

/-- ASCII class `[a-z]` of the star-extraction pattern. -/
def isLowerAZ (c : Char) : Bool := 'a' ≤ c && c ≤ 'z'

/-- ASCII class `[0-9]`. -/
def isDigit09 (c : Char) : Bool := '0' ≤ c && c ≤ '9'

/-- ASCII word character (`\w`), used for the `\b` boundary test. -/
def isWordChar (c : Char) : Bool := isUpperAZ c || isLowerAZ c || isDigit09 c || c == '_'

/-- Python whitespace (`\s`, and the characters removed by `str.strip()`). -/
def isPySpace (c : Char) : Bool :=
  c == ' ' || c == '\t' || c == '\n' || c == '\r' || c == '\x0b' || c == '\x0c'

/-- `str.strip()`: drop leading and trailing whitespace. -/
def pyStrip (l : List Char) : List Char :=
  ((l.dropWhile isPySpace).reverse.dropWhile isPySpace).reverse

/-- Greedily consume `[a-z]+` (possibly empty here; callers require one
character): returns the consumed run and the remaining characters. -/
def takeLowers : List Char → List Char × List Char
  | [] => ([], [])
  | c :: cs =>
    if isLowerAZ c then
      let p := takeLowers cs
      (c :: p.1, p.2)
    else ([], c :: cs)

/-- Greedy match of the tail `(?:\s[A-Z][a-z]+)*` of the star pattern:
returns the consumed characters and the remainder.  Each iteration consumes
one whitespace character, one uppercase letter and a nonempty lowercase run.
`fuel` bounds recursion depth; each iteration consumes at least three
characters, so `fuel` = input length never runs out. -/
def matchTail : Nat → List Char → List Char × List Char
  | 0, cs => ([], cs)
  | fuel + 1, cs =>
    match cs with
    | s :: u :: rest =>
      if isPySpace s && isUpperAZ u then
        match takeLowers rest with
        | ([], _) => ([], cs)
        | (l :: ls, rest2) =>
          let p := matchTail fuel rest2
          (s :: u :: l :: (ls ++ p.1), p.2)
      else ([], cs)
    | _ => ([], cs)

/-- `re.findall(r"\b[A-Z][a-z]+(?:\s[A-Z][a-z]+)*", ·)`: left-to-right scan
producing the non-overlapping greedy matches.  `prevWord` says whether the
character just before the scan position is a word character (the `\b` test:
the pattern starts with a word character, so it can only match where the
preceding character is not one).  After a match the scan resumes at the
match end, whose last character is a lowercase letter, hence `true`.
`fuel` bounds recursion depth; every step consumes at least one character,
so `fuel` = input length never runs out. -/
def findAll : Nat → Bool → List Char → List (List Char)
  | 0, _, _ => []
  | _ + 1, _, [] => []
  | fuel + 1, prevWord, c :: cs =>
    if !prevWord && isUpperAZ c then
      match takeLowers cs with
      | ([], _) => findAll fuel (isWordChar c) cs
      | (l :: ls, rest) =>
        let p := matchTail rest.length rest
        (c :: l :: (ls ++ p.1)) :: findAll fuel true p.2
    else findAll fuel (isWordChar c) cs

/-- All matches of the star pattern in a string, as strings. -/
def reFindAllNames (s : String) : List String :=
  (findAll (s.toList.length + 1) false s.toList).map (fun l => String.mk l)

/-- Characters other than the separators of `re.split(r"[-|]", ·)`. -/
def notSeparator (c : Char) : Bool := !(c == '-' || c == '|')

/-- `clean_title`: keep only the part before the first `-` or `|`, stripped. -/
def clean_title (title : String) : String :=
  String.mk (pyStrip (title.toList.takeWhile notSeparator))

/-- The stoplist `ignore` of `extract_stars`. -/
def ignoreSet : List String := ["Latest", "Yoruba", "Movie", "Drama", "Part", "Episode"]

/-- The filtered candidate list of `extract_stars`:
`[m for m in matches if m not in ignore]` over `title + " " + description`. -/
def starCandidates (title description : String) : List String :=
  (reFindAllNames (title ++ " " ++ description)).filter (fun m => !(ignoreSet.contains m))

/-- `list(dict.fromkeys(·))`: first-occurrence-preserving deduplication.
`seen` is the key set accumulated so far (insertion order irrelevant for
membership). -/
def dictFromKeys : List String → List String → List String
  | _, [] => []
  | seen, x :: xs =>
    if seen.contains x then dictFromKeys seen xs
    else x :: dictFromKeys (x :: seen) xs

/-- `extract_stars`: capitalized-run candidates from title and description,
stoplist filtered, deduplicated preserving first-seen order. -/
def extract_stars (title description : String) : List String :=
  dictFromKeys [] (starCandidates title description)

/-- `str.split("\n")`: split on every newline (n newlines give n+1 parts). -/
def splitOnNewline : List Char → List (List Char)
  | [] => [[]]
  | c :: cs =>
    if c == '\n' then [] :: splitOnNewline cs
    else
      match splitOnNewline cs with
      | [] => [[c]]
      | h :: t => (c :: h) :: t

/-- The description post-processing of `main`:
`desc = d["description"].split("\n")[0:5]`,
`desc = " ".join([x.strip() for x in desc if x.strip()])`,
record field `desc if desc else "No description"`. -/
def process_description (d : String) : String :=
  let lines := (splitOnNewline d.toList).take 5
  let parts := lines.filterMap (fun x =>
    let s := pyStrip x
    if s.isEmpty then none else some (String.mk s))
  let joined := String.intercalate " " parts
  if joined.isEmpty then "No description" else joined

/-- Listing record produced by `get_channel_videos`. -/
structure VideoRecord where
  videoId : String
  title : String
  description : String
  deriving DecidableEq

/-- Per-video detail produced by `get_video_details` (duration in seconds). -/
structure VideoDetail where
  duration : Nat
  category : String
  description : String
  deriving DecidableEq

/-- Final output unit appended to `movies` in `main`. -/
structure MovieRecord where
  title : String
  category : String
  stars : List String
  duration : Nat
  description : String
  deriving DecidableEq

/-- `stars if stars else ["Unknown"]` in `main`. -/
def starsOrUnknown (title description : String) : List String :=
  let stars := extract_stars title description
  if stars.isEmpty then ["Unknown"] else stars

/-- The per-video body of the loop in `main`, given that video's detail:
skip when under 15 minutes, otherwise build the movie record. -/
def classify (v : VideoRecord) (d : VideoDetail) : Option MovieRecord :=
  let minutes := d.duration / 60
  if minutes < 15 then none
  else some
    { title := clean_title v.title
      category := d.category
      stars := starsOrUnknown v.title d.description
      duration := minutes
      description := process_description d.description }

/-- `get_video_details`: one batch request for `ids`; the response dictionary
holds exactly the requested identifiers that the service knows
(`details : String → Option VideoDetail` is the service's knowledge;
identifiers outside the batch are absent from the returned dictionary). -/
def get_video_details (details : String → Option VideoDetail) (ids : List String) :
    String → Option VideoDetail :=
  fun vid => if ids.contains vid then details vid else none

/-- Direct (unbatched) processing of one listed video: look the video up in
the service's detail knowledge (`if vid not in details: continue`) and
classify it. -/
def processVideo (details : String → Option VideoDetail) (v : VideoRecord) :
    Option MovieRecord :=
  match details v.videoId with
  | none => none
  | some d => classify v d

/-- The batched loop of `main`: `for i in range(0, len(all_ids), 50)` takes
the next 50 videos, fetches their details in one call, and processes the
slice in listing order.  `fuel` bounds recursion depth; each step consumes
at least one video, so `fuel` = number of videos never runs out. -/
def mainMoviesAux (details : String → Option VideoDetail) :
    Nat → List VideoRecord → List MovieRecord
  | 0, _ => []
  | _ + 1, [] => []
  | fuel + 1, v :: vs =>
    let chunk := (v :: vs).take 50
    let dm := get_video_details details (chunk.map VideoRecord.videoId)
    chunk.filterMap (fun w => (dm w.videoId).bind (classify w))
      ++ mainMoviesAux details fuel ((v :: vs).drop 50)

/-- The `movies` list built by `main`. -/
def mainMovies (details : String → Option VideoDetail) (videos : List VideoRecord) :
    List MovieRecord :=
  mainMoviesAux details videos.length videos

/-- What `main` prints after the loop: either the single
"No full movies found." notice or the movie records in order. -/
inductive ConsoleOutput
  | noMoviesNotice : ConsoleOutput
  | movieList : List MovieRecord → ConsoleOutput
  deriving DecidableEq

/-- `if not movies: print(notice) else: print records` in `main`. -/
def mainOutput (details : String → Option VideoDetail) (videos : List VideoRecord) :
    ConsoleOutput :=
  let movies := mainMovies details videos
  if movies.isEmpty then ConsoleOutput.noMoviesNotice else ConsoleOutput.movieList movies

/-- `CHANNEL_HANDLE` constant. -/
def CHANNEL_HANDLE : String := "itelediconstudio"

/-- `get_channel_id`: first item identifier of the channel-lookup response,
or `ValueError` when the response has no items. -/
def get_channel_id (handle : String) (items : List String) : Except String String :=
  match items with
  | [] => Except.error ("Could not resolve channel handle " ++ handle)
  | cid :: _ => Except.ok cid

/-- `get_channel_videos`: concatenation of the paginated search responses,
in page order (newest first). -/
def get_channel_videos (pages : List (List VideoRecord)) : List VideoRecord :=
  pages.flatten

/-- The three read-only endpoints the script calls. -/
inductive ApiRequest
  | channels
  | search
  | videosBatch
  deriving DecidableEq

/-- The remote service as seen by one run: the item identifiers of the
channel-lookup response, the pages of the video search, and the per-video
detail knowledge. -/
structure ApiEnv where
  channelItems : List String
  pages : List (List VideoRecord)
  details : String → Option VideoDetail

/-- `main`, with the sequence of outbound requests it issues: one
channel-lookup request, then (only if resolution succeeded) one search
request per page and one batch detail request per 50-video chunk. -/
def mainRun (env : ApiEnv) : List ApiRequest × Except String ConsoleOutput :=
  match get_channel_id CHANNEL_HANDLE env.channelItems with
  | Except.error e => ([ApiRequest.channels], Except.error e)
  | Except.ok _ =>
    let videos := get_channel_videos env.pages
    let listingReqs := env.pages.map (fun _ => ApiRequest.search)
    let batchReqs := (List.range ((videos.length + 49) / 50)).map
      (fun _ => ApiRequest.videosBatch)
    (ApiRequest.channels :: (listingReqs ++ batchReqs),
     Except.ok (mainOutput env.details videos))






/-- Raw title of the spec's worked scenario. -/
def titleC1 : String := "Aye Ife - Latest Yoruba Movie 2023 Starring Bola Aina"

/-- Detail description of the spec's worked scenario. -/
def descC1 : String := "A romantic drama.\nStarring Bola Aina and Kemi Afolabi.\n\n\n"

/-- Listed video of the worked scenario. -/
def videoC1 : VideoRecord := { videoId := "vidC1", title := titleC1, description := "snippet" }

/-- Detail knowledge of the worked scenario: duration 5400 s, category 24. -/
def detailsC1 : String → Option VideoDetail :=
  fun vid => if vid = "vidC1" then some { duration := 5400, category := "24", description := descC1 } else none

/-- The movie record the pipeline actually produces on the worked scenario. -/
def recordC1 : MovieRecord :=
  { title := "Aye Ife"
    category := "24"
    stars := ["Aye Ife", "Latest Yoruba Movie", "Starring Bola Aina", "Kemi Afolabi"]
    duration := 90
    description := "A romantic drama. Starring Bola Aina and Kemi Afolabi." }


lemma string_mk_toList (s : String) : String.mk s.toList = s := rfl

lemma takeWhile_eq_self_of_all {α : Type} {p : α → Bool} :
    ∀ l : List α, (∀ c ∈ l, p c = true) → l.takeWhile p = l := by
  intro l
  induction l with
  | nil => intro _; rfl
  | cons a as ih =>
    intro h
    rw [List.takeWhile_cons, if_pos (h a (List.mem_cons_self a as))]
    rw [ih (fun c hc => h c (List.mem_cons_of_mem a hc))]

lemma takeWhile_append_stop {α : Type} {p : α → Bool} :
    ∀ (pre : List α) (x : α) (post : List α),
      (∀ c ∈ pre, p c = true) → p x = false →
      (pre ++ x :: post).takeWhile p = pre := by
  intro pre
  induction pre with
  | nil => intro x post _ hx; simp [List.takeWhile_cons, hx]
  | cons a as ih =>
    intro x post h hx
    rw [List.cons_append, List.takeWhile_cons, if_pos (h a (List.mem_cons_self a as))]
    rw [ih x post (fun c hc => h c (List.mem_cons_of_mem a hc)) hx]

lemma mem_dictFromKeys :
    ∀ (l seen : List String) (a : String),
      a ∈ dictFromKeys seen l ↔ a ∈ l ∧ a ∉ seen := by
  intro l
  induction l with
  | nil => intro seen a; simp [dictFromKeys]
  | cons x xs ih =>
    intro seen a
    unfold dictFromKeys
    by_cases hx : x ∈ seen
    · rw [if_pos (by simpa [List.contains, List.elem_iff] using hx), ih]
      constructor
      · rintro ⟨ha, hna⟩; exact ⟨List.mem_cons_of_mem _ ha, hna⟩
      · rintro ⟨ha, hna⟩
        rcases List.mem_cons.mp ha with h | h
        · exact absurd (h ▸ hx) hna
        · exact ⟨h, hna⟩
    · rw [if_neg (by simpa [List.contains, List.elem_iff] using hx), List.mem_cons, ih]
      constructor
      · rintro (rfl | ⟨ha, hna⟩)
        · exact ⟨List.mem_cons_self a xs, hx⟩
        · exact ⟨List.mem_cons_of_mem _ ha,
            fun hs => hna (List.mem_cons_of_mem x hs)⟩
      · rintro ⟨ha, hna⟩
        by_cases hax : a = x
        · exact Or.inl hax
        · refine Or.inr ⟨?_, ?_⟩
          · rcases List.mem_cons.mp ha with h | h
            · exact absurd h hax
            · exact h
          · intro hs
            rcases List.mem_cons.mp hs with h | h
            · exact hax h
            · exact hna h

lemma nodup_dictFromKeys : ∀ (l seen : List String), (dictFromKeys seen l).Nodup := by
  intro l
  induction l with
  | nil => intro seen; simp [dictFromKeys]
  | cons x xs ih =>
    intro seen
    unfold dictFromKeys
    split
    · exact ih seen
    · refine List.nodup_cons.mpr ⟨?_, ih (x :: seen)⟩
      intro hx
      exact ((mem_dictFromKeys xs (x :: seen) x).mp hx).2 (List.mem_cons_self x seen)

lemma sublist_dictFromKeys : ∀ (l seen : List String), (dictFromKeys seen l).Sublist l := by
  intro l
  induction l with
  | nil => intro seen; simp [dictFromKeys]
  | cons x xs ih =>
    intro seen
    unfold dictFromKeys
    split
    · exact (ih seen).trans (List.sublist_cons_self x xs)
    · exact (ih (x :: seen)).cons₂ x

lemma pairwise_indexOf_dictFromKeys :
    ∀ (l seen : List String),
      List.Pairwise (fun a b => l.indexOf a < l.indexOf b) (dictFromKeys seen l) := by
  intro l
  induction l with
  | nil => intro seen; simp [dictFromKeys]
  | cons x xs ih =>
    intro seen
    unfold dictFromKeys
    split
    case isTrue hc =>
      have hxs : x ∈ seen := by simpa [List.contains, List.elem_iff] using hc
      refine (ih seen).imp_of_mem ?_
      intro a b ha hb hab
      have hax : x ≠ a :=
        fun e => ((mem_dictFromKeys xs seen a).mp ha).2 (e ▸ hxs)
      have hbx : x ≠ b :=
        fun e => ((mem_dictFromKeys xs seen b).mp hb).2 (e ▸ hxs)
      rw [List.indexOf_cons_ne _ hax, List.indexOf_cons_ne _ hbx]
      exact Nat.succ_lt_succ hab
    case isFalse hc =>
      refine List.pairwise_cons.mpr ⟨?_, ?_⟩
      · intro b hb
        have hbx : x ≠ b := fun e =>
          ((mem_dictFromKeys xs (x :: seen) b).mp hb).2 (e ▸ List.mem_cons_self x seen)
        rw [List.indexOf_cons_self, List.indexOf_cons_ne _ hbx]
        exact Nat.succ_pos _
      · refine (ih (x :: seen)).imp_of_mem ?_
        intro a b ha hb hab
        have hax : x ≠ a := fun e =>
          ((mem_dictFromKeys xs (x :: seen) a).mp ha).2 (e ▸ List.mem_cons_self x seen)
        have hbx : x ≠ b := fun e =>
          ((mem_dictFromKeys xs (x :: seen) b).mp hb).2 (e ▸ List.mem_cons_self x seen)
        rw [List.indexOf_cons_ne _ hax, List.indexOf_cons_ne _ hbx]
        exact Nat.succ_lt_succ hab

lemma starsOrUnknown_ne_nil (title description : String) :
    starsOrUnknown title description ≠ [] := by
  by_cases h : (extract_stars title description).isEmpty = true
  · simp [starsOrUnknown, h]
  · have h2 : extract_stars title description ≠ [] :=
      fun heq => h (List.isEmpty_iff.mpr heq)
    simpa [starsOrUnknown, h] using h2

lemma processVideo_eq_bind (details : String → Option VideoDetail) (v : VideoRecord) :
    processVideo details v = (details v.videoId).bind (classify v) := by
  unfold processVideo
  cases details v.videoId <;> rfl

lemma mainMoviesAux_eq (details : String → Option VideoDetail) :
    ∀ (fuel : Nat) (videos : List VideoRecord), videos.length ≤ fuel →
      mainMoviesAux details fuel videos = videos.filterMap (processVideo details) := by
  intro fuel
  induction fuel with
  | zero =>
    intro videos h
    have hnil : videos = [] := List.eq_nil_of_length_eq_zero (Nat.le_zero.mp h)
    subst hnil; rfl
  | succ n ih =>
    intro videos h
    cases videos with
    | nil => rfl
    | cons v vs =>
      simp only [mainMoviesAux]
      have hchunk : ∀ w ∈ (v :: vs).take 50,
          get_video_details details (((v :: vs).take 50).map VideoRecord.videoId) w.videoId
            = details w.videoId := by
        intro w hw
        unfold get_video_details
        rw [if_pos]
        have hmem : w.videoId ∈ ((v :: vs).take 50).map VideoRecord.videoId :=
          List.mem_map_of_mem _ hw
        simpa [List.contains, List.elem_iff] using hmem
      have h1 : ((v :: vs).take 50).filterMap
            (fun w => (get_video_details details
              (((v :: vs).take 50).map VideoRecord.videoId) w.videoId).bind (classify w))
          = ((v :: vs).take 50).filterMap (processVideo details) :=
        List.filterMap_congr (fun w hw => by
          rw [hchunk w hw]; exact (processVideo_eq_bind details w).symm)
      have h2 : ((v :: vs).drop 50).length ≤ n := by
        rw [List.length_drop]
        simp only [List.length_cons] at h ⊢
        omega
      rw [h1, ih ((v :: vs).drop 50) h2, ← List.filterMap_append, List.take_append_drop]

lemma mainMovies_eq_filterMap (details : String → Option VideoDetail)
    (videos : List VideoRecord) :
    mainMovies details videos = videos.filterMap (processVideo details) :=
  mainMoviesAux_eq details videos.length videos (Nat.le_refl _)

/-- C2 claim semantics, for comparison with the code: select the first 5
non-empty (after trimming) lines of the description, join them with single
spaces; the literal "No description" when the selection is empty. -/
def firstFiveNonEmptyJoined (d : String) : String :=
  let nonEmptyLines := ((splitOnNewline d.toList).map pyStrip).filter (fun l => !l.isEmpty)
  let joined := String.intercalate " " ((nonEmptyLines.take 5).map String.mk)
  if joined.isEmpty then "No description" else joined

/-- C2 amended semantics, worded from the amended claim: take the first 5
lines of the description (split on newline), trim each, drop the blank ones,
join with single spaces; the literal "No description" when that is empty. -/
def firstFiveLinesJoined (d : String) : String :=
  let firstFive := (splitOnNewline d.toList).take 5
  let kept := (firstFive.map pyStrip).filter (fun l => !l.isEmpty)
  let joined := String.intercalate " " (kept.map String.mk)
  if joined.isEmpty then "No description" else joined

lemma filterMap_strip_eq (ls : List (List Char)) :
    ls.filterMap (fun x =>
      let s := pyStrip x
      if s.isEmpty then none else some (String.mk s)) =
    ((ls.map pyStrip).filter (fun l => !l.isEmpty)).map String.mk := by
  induction ls with
  | nil => rfl
  | cons x xs ih =>
    rw [List.map_cons, List.filter_cons]
    by_cases h : (pyStrip x).isEmpty = true
    · rw [List.filterMap_cons_none (by simp [h]), if_neg (by simp [h]), ih]
    · rw [List.filterMap_cons_some (b := String.mk (pyStrip x)) (by simp [h]),
        if_pos (by simp [h]), List.map_cons, ih]

/-- C1: on the worked scenario (raw title
"Aye Ife - Latest Yoruba Movie 2023 Starring Bola Aina", duration 5400 s,
detail description "A romantic drama.\nStarring Bola Aina and Kemi
Afolabi.\n\n\n"), the pipeline emits exactly one record, and its stars list
does NOT contain "Bola Aina" as an element: the greedy capitalized-run
match produces the element "Starring Bola Aina" instead, so the claim's
expected stars content is wrong. -/
theorem C1_counterexample :
    mainMovies detailsC1 [videoC1] = [recordC1] ∧
    "Bola Aina" ∉ recordC1.stars := by decide

/-- C1 (amended): on the worked scenario the pipeline produces title
"Aye Ife", duration 90, stars
["Aye Ife", "Latest Yoruba Movie", "Starring Bola Aina", "Kemi Afolabi"]
(the names "Bola Aina" and "Kemi Afolabi" appear in that order but inside
the matched runs "Starring Bola Aina" and "Kemi Afolabi"; no element equals
"Latest", "Yoruba" or "Movie"), and description
"A romantic drama. Starring Bola Aina and Kemi Afolabi." -/
theorem C1_scenario_amended :
    mainMovies detailsC1 [videoC1] = [recordC1] ∧
    recordC1.title = "Aye Ife" ∧
    recordC1.duration = 90 ∧
    recordC1.stars =
      ["Aye Ife", "Latest Yoruba Movie", "Starring Bola Aina", "Kemi Afolabi"] ∧
    "Kemi Afolabi" ∈ recordC1.stars ∧
    (∀ s ∈ recordC1.stars, s ≠ "Latest" ∧ s ≠ "Yoruba" ∧ s ≠ "Movie") ∧
    recordC1.description = "A romantic drama. Starring Bola Aina and Kemi Afolabi." := by
  decide

/-- C2: the code does not select the first 5 non-empty lines; it selects the
first 5 lines and then drops the empty ones.  On "\n\n\n\n\nHello" the first
5 lines are all empty, so the code yields "No description" while the claim's
selection would yield "Hello". -/
theorem C2_counterexample :
    process_description "\n\n\n\n\nHello" = "No description" ∧
    firstFiveNonEmptyJoined "\n\n\n\n\nHello" = "Hello" ∧
    process_description "\n\n\n\n\nHello" ≠ firstFiveNonEmptyJoined "\n\n\n\n\nHello" := by
  decide

/-- C2 (amended): for every raw description, the classifier takes the first
5 lines (split on newline), trims each, drops the blank ones, joins the rest
with single spaces, and uses the literal "No description" when that
selection is empty. -/
theorem C2_description_amended (d : String) :
    process_description d = firstFiveLinesJoined d := by
  simp only [process_description, firstFiveLinesJoined]
  rw [filterMap_strip_eq]

/-- C3: clean_title also strips surrounding whitespace, so a separator-free
title with leading or trailing whitespace is changed: " Aye " has no '-' and
no '|' but maps to "Aye". -/
theorem C3_counterexample :
    (" Aye ".toList.all notSeparator) = true ∧ clean_title " Aye " ≠ " Aye " := by
  decide

/-- C3 (amended): for every title with no '-' and no '|', clean_title
returns the title with surrounding whitespace stripped; in particular the
title is returned unchanged when stripping it changes nothing. -/
theorem C3_no_separator_amended (title : String)
    (h : ∀ c ∈ title.toList, notSeparator c = true) :
    clean_title title = String.mk (pyStrip title.toList) ∧
    (pyStrip title.toList = title.toList → clean_title title = title) := by
  have ht : title.toList.takeWhile notSeparator = title.toList :=
    takeWhile_eq_self_of_all title.toList h
  constructor
  · unfold clean_title; rw [ht]
  · intro hs
    unfold clean_title
    rw [ht, hs, string_mk_toList]

/-- Witness for C3: the separator-free, whitespace-free title "Aye" is
returned unchanged. -/
theorem C3_no_separator_amended_witness :
    clean_title "Aye" = String.mk (pyStrip "Aye".toList) ∧ clean_title "Aye" = "Aye" :=
  ⟨(C3_no_separator_amended "Aye" (by decide)).1,
   (C3_no_separator_amended "Aye" (by decide)).2 (by decide)⟩

/-- C4: for every raw title that decomposes as pre ++ sep :: post with sep
the first '-' or '|' (no separator occurs in pre), clean_title returns
exactly pre stripped of surrounding whitespace. -/
theorem C4_split_before_first_separator (title : String) (pre post : List Char)
    (sep : Char)
    (hsplit : title.toList = pre ++ sep :: post)
    (hsep : sep = '-' ∨ sep = '|')
    (hpre : ∀ c ∈ pre, notSeparator c = true) :
    clean_title title = String.mk (pyStrip pre) := by
  have hx : notSeparator sep = false := by
    rcases hsep with h | h <;> rw [h] <;> decide
  unfold clean_title
  rw [hsplit, takeWhile_append_stop pre sep post hpre hx]

/-- Witness for C4: "Aye Ife - Latest" maps to "Aye Ife". -/
theorem C4_split_before_first_separator_witness :
    clean_title "Aye Ife - Latest" = "Aye Ife" :=
  Eq.trans
    (C4_split_before_first_separator "Aye Ife - Latest" ("Aye Ife ".toList)
      (" Latest".toList) '-' (by decide) (Or.inl rfl) (by decide))
    (by decide)

/-- A simple listed video used to instantiate the general theorems. -/
def videoW : VideoRecord := { videoId := "w1", title := "Ade Movie", description := "snippet" }

/-- Detail for `videoW`: 5400 s, empty description. -/
def detailW : VideoDetail := { duration := 5400, category := "1", description := "" }

/-- Detail knowledge holding only `videoW`. -/
def detailsW : String → Option VideoDetail :=
  fun vid => if vid = "w1" then some detailW else none

/-- The record the pipeline produces for `videoW`. -/
def recordW : MovieRecord :=
  { title := "Ade Movie", category := "1", stars := ["Ade Movie"], duration := 90,
    description := "No description" }

/-- C5: for a video with detail duration d seconds, the classifier computes
minutes = floor(d / 60) (this is the emitted duration), drops the video
whenever that is below 15, and consequently every emitted record has
duration at least 15 minutes. -/
theorem C5_duration_floor_threshold (details : String → Option VideoDetail)
    (videos : List VideoRecord) (v : VideoRecord) (d : VideoDetail) (mr : MovieRecord) :
    (classify v d = some mr → mr.duration = d.duration / 60 ∧ 15 ≤ mr.duration) ∧
    (d.duration / 60 < 15 → classify v d = none) ∧
    (mr ∈ mainMovies details videos → 15 ≤ mr.duration) := by
  have hclass : ∀ (w : VideoRecord) (dd : VideoDetail) (m : MovieRecord),
      classify w dd = some m → m.duration = dd.duration / 60 ∧ 15 ≤ m.duration := by
    intro w dd m h
    simp only [classify] at h
    by_cases hlt : dd.duration / 60 < 15
    · rw [if_pos hlt] at h
      exact Option.noConfusion h
    · rw [if_neg hlt] at h
      injection h with h2
      rw [← h2]
      exact ⟨rfl, Nat.le_of_not_lt hlt⟩
  refine ⟨hclass v d mr, ?_, ?_⟩
  · intro hlt
    simp only [classify]
    rw [if_pos hlt]
  · intro hmem
    rw [mainMovies_eq_filterMap] at hmem
    obtain ⟨w, hw, hpw⟩ := List.mem_filterMap.mp hmem
    rw [processVideo_eq_bind] at hpw
    cases hdd : details w.videoId with
    | none => rw [hdd] at hpw; exact Option.noConfusion hpw
    | some dd =>
      rw [hdd] at hpw
      exact (hclass w dd mr hpw).2

/-- Witness for C5: `videoW` (5400 s) is emitted with 90 = 5400/60 minutes;
the same video with a 600 s detail is dropped. -/
theorem C5_duration_floor_threshold_witness :
    (recordW.duration = 5400 / 60 ∧ 15 ≤ recordW.duration) ∧
    classify videoW { duration := 600, category := "1", description := "" } = none ∧
    15 ≤ recordW.duration :=
  ⟨(C5_duration_floor_threshold detailsW [videoW] videoW detailW recordW).1 (by decide),
   (C5_duration_floor_threshold detailsW [videoW] videoW
      { duration := 600, category := "1", description := "" } recordW).2.1 (by decide),
   (C5_duration_floor_threshold detailsW [videoW] videoW detailW recordW).2.2 (by decide)⟩

/-- C6: every emitted record has a nonempty stars list, and whenever every
capitalized-word run of title-plus-description lies in the stoplist (or no
run exists), the stars field is exactly ["Unknown"]. -/
theorem C6_stars_never_empty (details : String → Option VideoDetail)
    (videos : List VideoRecord) (mr : MovieRecord) (t d : String) :
    (mr ∈ mainMovies details videos → mr.stars ≠ []) ∧
    ((∀ m ∈ reFindAllNames (t ++ " " ++ d), m ∈ ignoreSet) →
      starsOrUnknown t d = ["Unknown"]) := by
  constructor
  · intro hmem
    rw [mainMovies_eq_filterMap] at hmem
    obtain ⟨w, hw, hpw⟩ := List.mem_filterMap.mp hmem
    rw [processVideo_eq_bind] at hpw
    cases hdd : details w.videoId with
    | none => rw [hdd] at hpw; exact Option.noConfusion hpw
    | some dd =>
      rw [hdd] at hpw
      have hpw2 : classify w dd = some mr := hpw
      simp only [classify] at hpw2
      by_cases hlt : dd.duration / 60 < 15
      · rw [if_pos hlt] at hpw2
        exact Option.noConfusion hpw2
      · rw [if_neg hlt] at hpw2
        injection hpw2 with h2
        rw [← h2]
        exact starsOrUnknown_ne_nil w.title dd.description
  · intro hall
    have hcand : starCandidates t d = [] := by
      unfold starCandidates
      rw [List.filter_eq_nil_iff]
      intro a ha
      have hmem : a ∈ ignoreSet := hall a ha
      simp [List.contains, List.elem_iff, hmem]
    simp only [starsOrUnknown, extract_stars, hcand]
    rfl

/-- Witness for C6: `recordW` is emitted with nonempty stars, and the
stoplist-only title "Latest" with empty description yields ["Unknown"]. -/
theorem C6_stars_never_empty_witness :
    recordW.stars ≠ [] ∧ starsOrUnknown "Latest" "" = ["Unknown"] :=
  ⟨(C6_stars_never_empty detailsW [videoW] recordW "Latest" "").1 (by decide),
   (C6_stars_never_empty detailsW [videoW] recordW "Latest" "").2 (by decide)⟩

/-- C7: `dict.fromkeys` deduplication has no duplicates in its output, the
output is a subsequence of the candidate list with the same members, and
its elements are ordered by first occurrence in the candidates;
`extract_stars` is exactly this deduplication of its filtered candidates. -/
theorem C7_dedup_first_occurrence (cands : List String) (t d : String) :
    (dictFromKeys [] cands).Nodup ∧
    (dictFromKeys [] cands).Sublist cands ∧
    (∀ a, a ∈ dictFromKeys [] cands ↔ a ∈ cands) ∧
    List.Pairwise (fun a b => cands.indexOf a < cands.indexOf b)
      (dictFromKeys [] cands) ∧
    extract_stars t d = dictFromKeys [] (starCandidates t d) := by
  refine ⟨nodup_dictFromKeys cands [], sublist_dictFromKeys cands [],
    ?_, pairwise_indexOf_dictFromKeys cands [], rfl⟩
  intro a
  rw [mem_dictFromKeys]
  simp

/-- C8: when the channel-lookup response has no items, the run terminates
with the resolution error and issues no search or batch-detail request:
the request trace is exactly the single channel-lookup call. -/
theorem C8_resolution_error_stops_run (env : ApiEnv)
    (h : env.channelItems = []) :
    mainRun env = ([ApiRequest.channels],
      Except.error ("Could not resolve channel handle " ++ CHANNEL_HANDLE)) ∧
    ApiRequest.search ∉ (mainRun env).1 ∧
    ApiRequest.videosBatch ∉ (mainRun env).1 := by
  have hrun : mainRun env = ([ApiRequest.channels],
      Except.error ("Could not resolve channel handle " ++ CHANNEL_HANDLE)) := by
    unfold mainRun
    rw [h]
    rfl
  refine ⟨hrun, ?_, ?_⟩ <;> rw [hrun] <;> decide

/-- Witness for C8: an environment whose channel lookup returns no items. -/
theorem C8_resolution_error_stops_run_witness :
    mainRun { channelItems := [], pages := [], details := fun _ => none } =
      ([ApiRequest.channels],
       Except.error ("Could not resolve channel handle " ++ CHANNEL_HANDLE)) :=
  (C8_resolution_error_stops_run
    { channelItems := [], pages := [], details := fun _ => none } rfl).1

/-- C9: despite the batching into chunks of 50, the emitted records are the
order-preserving filtered map of the listed videos (same relative order);
and the printed output is the single no-movies notice exactly when the
record sequence is empty, and the record list itself otherwise. -/
theorem C9_order_preserved_and_empty_notice (details : String → Option VideoDetail)
    (videos : List VideoRecord) :
    mainMovies details videos = videos.filterMap (processVideo details) ∧
    mainOutput details videos =
      (if mainMovies details videos = [] then ConsoleOutput.noMoviesNotice
       else ConsoleOutput.movieList (mainMovies details videos)) := by
  refine ⟨mainMovies_eq_filterMap details videos, ?_⟩
  simp only [mainOutput]
  by_cases h : mainMovies details videos = []
  · rw [if_pos (by rw [h]; rfl), if_pos h]
  · rw [if_neg (fun hc => h (List.isEmpty_iff.mp hc)), if_neg h]

/-- C10: a candidate run is removed only when it is, as a whole, one of the
stoplist terms; membership in the stars output is membership among the
matched runs minus exact stoplist elements, and in particular the multi-word
run "Latest Yoruba Movie" is retained. -/
theorem C10_stoplist_exact_runs_only (t d m : String) :
    (m ∈ extract_stars t d ↔
      m ∈ reFindAllNames (t ++ " " ++ d) ∧ m ∉ ignoreSet) ∧
    "Latest Yoruba Movie" ∈ extract_stars titleC1 "" := by
  constructor
  · unfold extract_stars
    rw [mem_dictFromKeys]
    unfold starCandidates
    rw [List.mem_filter]
    simp [List.contains, List.elem_iff]
  · decide

